import Mathlib

/-!
Verification of the TCP connectivity scanner
(`tools/custom_built/simple_port_scanner.go`).

The program is:

  func main() {
      target := "scanme.nmap.org"
      for port := 20; port <= 1024; port++ {
          address := fmt.Sprintf("%s:%d", target, port)
          conn, err := net.DialTimeout("tcp", address, 1*time.Second)
          if err == nil {
              fmt.Printf("Port %d open\n", port)
              conn.Close()
          }
      }
  }

We embed the program as a function from a connect oracle
(`connect p = true` iff `net.DialTimeout` for port `p` returns `err == nil`)
to the finite trace of observable events `main` performs, in order.
The event vocabulary covers the `net.Conn` operations the program could
call: dialing, printing a line to standard output, closing a connection,
and reading or writing application data on a connection (the source never
calls `Read` or `Write`; the constructors exist so that their absence from
the trace is a statement about the program, not about the vocabulary).
-/

namespace PortScanner

/-- Observable events of one run of `main`, in program order. -/
inductive Event where
  | dial (port : Nat) (timeoutSeconds : Nat)
  | report (port : Nat)
  | close (port : Nat)
  | readData (port : Nat)
  | writeData (port : Nat)
  deriving DecidableEq

/-- Hardcoded target host (`target := "scanme.nmap.org"`). -/
def target : String := "scanme.nmap.org"

/-- First port of the loop (`for port := 20; ...`). -/
def portStart : Nat := 20

/-- Last port of the loop (`...; port <= 1024; port++`). -/
def portEnd : Nat := 1024

/-- Per-connection timeout passed to `net.DialTimeout` (`1*time.Second`). -/
def timeoutSeconds : Nat := 1

/-- The ports the loop visits, in loop order: 20, 21, ..., 1024. -/
def portList : List Nat := List.range' portStart (portEnd + 1 - portStart)

/-- One iteration of the loop body for port `p`: dial; if `err == nil`,
print the report line and close the connection; otherwise do nothing else. -/
def attemptPort (connect : Nat → Bool) (p : Nat) : List Event :=
  Event.dial p timeoutSeconds ::
    (if connect p then [Event.report p, Event.close p] else [])

/-- The loop over a list of ports, emitting each iteration trace in order. -/
def scanList (connect : Nat → Bool) : List Nat → List Event
  | [] => []
  | p :: ps => attemptPort connect p ++ scanList connect ps

/-- The event trace of one run of `main`, given the connect oracle. -/
def mainTrace (connect : Nat → Bool) : List Event :=
  scanList connect portList

/-- Full observable behavior of `main`: the event trace and the process
exit status.  The source has no `os.Exit` call, ignores the results of
`fmt.Printf` and `conn.Close`, and `main` returns normally on every path,
so the exit status is 0 for every oracle. -/
def mainRun (connect : Nat → Bool) : List Event × Nat :=
  (mainTrace connect, 0)

/-- The line `fmt.Printf("Port %d open\n", port)` writes for port `p`. -/
def lineFor (p : Nat) : String := "Port " ++ toString p ++ " open"

/-- The lines written to standard output along a trace, in order. -/
def outputOf (es : List Event) : List String :=
  es.filterMap fun e =>
    match e with
    | Event.report p => some (lineFor p)
    | _ => none

/-- The ports reported open along a trace, in order of emission. -/
def reportedPorts (es : List Event) : List Nat :=
  es.filterMap fun e =>
    match e with
    | Event.report p => some p
    | _ => none

/-- The ports for which a connection attempt was made, in order. -/
def dialedPorts (es : List Event) : List Nat :=
  es.filterMap fun e =>
    match e with
    | Event.dial p _ => some p
    | _ => none

/-- Checks that every `report p` event in the trace is immediately
followed by a `close p` event. -/
def closedImmediately (p : Nat) : List Event → Bool
  | [] => true
  | Event.report q :: rest =>
      if q = p then
        match rest with
        | Event.close r :: rest2 => r = p && closedImmediately p rest2
        | _ => false
      else closedImmediately p rest
  | _ :: rest => closedImmediately p rest

/- ### Basic trace lemmas -/

theorem scanList_append (connect : Nat → Bool) (l₁ l₂ : List Nat) :
    scanList connect (l₁ ++ l₂) = scanList connect l₁ ++ scanList connect l₂ := by
  induction l₁ with
  | nil => rfl
  | cons p ps ih => simp [scanList, ih]

theorem reportedPorts_append (l₁ l₂ : List Event) :
    reportedPorts (l₁ ++ l₂) = reportedPorts l₁ ++ reportedPorts l₂ := by
  simp [reportedPorts, List.filterMap_append]

theorem dialedPorts_append (l₁ l₂ : List Event) :
    dialedPorts (l₁ ++ l₂) = dialedPorts l₁ ++ dialedPorts l₂ := by
  simp [dialedPorts, List.filterMap_append]

theorem outputOf_append (l₁ l₂ : List Event) :
    outputOf (l₁ ++ l₂) = outputOf l₁ ++ outputOf l₂ := by
  simp [outputOf, List.filterMap_append]

theorem reportedPorts_attemptPort (connect : Nat → Bool) (p : Nat) :
    reportedPorts (attemptPort connect p) = if connect p then [p] else [] := by
  cases hc : connect p <;> simp [attemptPort, reportedPorts, hc]

theorem dialedPorts_attemptPort (connect : Nat → Bool) (p : Nat) :
    dialedPorts (attemptPort connect p) = [p] := by
  cases hc : connect p <;> simp [attemptPort, dialedPorts, hc]

theorem outputOf_attemptPort (connect : Nat → Bool) (p : Nat) :
    outputOf (attemptPort connect p) = if connect p then [lineFor p] else [] := by
  cases hc : connect p <;> simp [attemptPort, outputOf, hc]

/-- The reported ports of a scan over `ps` are exactly the ports of `ps`
whose connection attempt succeeds, in list order. -/
theorem reportedPorts_scanList (connect : Nat → Bool) (ps : List Nat) :
    reportedPorts (scanList connect ps) = ps.filter connect := by
  induction ps with
  | nil => rfl
  | cons p ps ih =>
      rw [scanList, reportedPorts_append, reportedPorts_attemptPort, ih]
      cases hc : connect p <;> simp [List.filter, hc]

/-- Every port of `ps` is dialed exactly once, in list order, whatever the
outcomes are. -/
theorem dialedPorts_scanList (connect : Nat → Bool) (ps : List Nat) :
    dialedPorts (scanList connect ps) = ps := by
  induction ps with
  | nil => rfl
  | cons p ps ih =>
      rw [scanList, dialedPorts_append, dialedPorts_attemptPort, ih]
      rfl

/-- The output of a scan over `ps` is one line per successful port, in
list order. -/
theorem outputOf_scanList (connect : Nat → Bool) (ps : List Nat) :
    outputOf (scanList connect ps) = (ps.filter connect).map lineFor := by
  induction ps with
  | nil => rfl
  | cons p ps ih =>
      rw [scanList, outputOf_append, outputOf_attemptPort, ih]
      cases hc : connect p <;> simp [List.filter, hc]

/-- Every event of a scan trace is a dial, a report or a close: the
program never reads or writes application data. -/
theorem event_shape_scanList (connect : Nat → Bool) (ps : List Nat) :
    ∀ e ∈ scanList connect ps,
      (∃ p t, e = Event.dial p t) ∨ (∃ p, e = Event.report p) ∨
        (∃ p, e = Event.close p) := by
  induction ps with
  | nil => intro e he; cases he
  | cons p ps ih =>
      intro e he
      rw [scanList, List.mem_append] at he
      rcases he with he | he
      · cases hc : connect p <;> rw [attemptPort, hc] at he <;> simp at he
        · exact Or.inl ⟨p, timeoutSeconds, he⟩
        · rcases he with he | he | he
          · exact Or.inl ⟨p, timeoutSeconds, he⟩
          · exact Or.inr (Or.inl ⟨p, he⟩)
          · exact Or.inr (Or.inr ⟨p, he⟩)
      · exact ih e he

theorem closedImmediately_attemptPort (connect : Nat → Bool) (p q : Nat)
    (rest : List Event) :
    closedImmediately p (attemptPort connect q ++ rest) =
      closedImmediately p rest := by
  cases hc : connect q
  · simp [attemptPort, hc, closedImmediately]
  · by_cases hq : q = p
    · subst hq; simp [attemptPort, hc, closedImmediately]
    · simp [attemptPort, hc, closedImmediately, hq]

/-- In every scan trace, each report is immediately followed by the close
of the same connection. -/
theorem closedImmediately_scanList (connect : Nat → Bool) (p : Nat)
    (ps : List Nat) : closedImmediately p (scanList connect ps) = true := by
  induction ps with
  | nil => rfl
  | cons q qs ih => rw [scanList, closedImmediately_attemptPort]; exact ih

theorem portList_nodup : portList.Nodup := List.nodup_range' _ _

theorem portList_sorted : portList.Pairwise (· < ·) :=
  List.pairwise_lt_range' portStart (portEnd + 1 - portStart) 1

theorem scanList_length_le (connect : Nat → Bool) (ps : List Nat) :
    (scanList connect ps).length ≤ 3 * ps.length := by
  induction ps with
  | nil => simp [scanList]
  | cons p qs ih =>
      rw [scanList, List.length_append]
      have hb : (attemptPort connect p).length ≤ 3 := by
        cases hc : connect p <;> simp [attemptPort, hc]
      simp only [List.length_cons]
      omega

theorem dial_timeout_scanList (connect : Nat → Bool) (ps : List Nat) :
    ∀ p t, Event.dial p t ∈ scanList connect ps → t = timeoutSeconds := by
  induction ps with
  | nil => intro p t h; cases h
  | cons q qs ih =>
      intro p t h
      rw [scanList, List.mem_append] at h
      rcases h with h | h
      · cases hc : connect q <;> rw [attemptPort, hc] at h <;> simp at h
        · exact h.2
        · exact h.2
      · exact ih p t h

/- ### Spec-modelled parameterised scan

Modelled from the spec: the parameterised operation
`scan(target, portRange, timeout)` of section 4.1, with the
ConfigurationError and ResolutionError checks of section 7, is not present
under `src/` (the baseline `main` hardcodes target, port range and
timeout, so no validation code exists there); it is modelled here from the
spec text.  The result pairs the outcome with the list of events actually
performed, so that "zero connection attempts" is a statement about the
returned trace. -/

/-- Scan-fatal error taxonomy from section 7 of the spec. -/
inductive ScanError where
  | configurationError
  | resolutionError
  deriving DecidableEq

/-- Modelled from the spec: a PortRange [low, high] is valid when
low ≤ high and both values lie in 1–65535. -/
def validRange (low high : Nat) : Bool :=
  decide (1 ≤ low) && decide (low ≤ high) && decide (high ≤ 65535)

/-- Modelled from the spec: `scan(target, portRange, timeout)`.
`resolves` abstracts whether the target host resolves; `timeoutMs` is the
timeout in milliseconds (an integer, so that non-positive values are
expressible).  Configuration is validated before any network activity;
resolution failure aborts with zero results; otherwise the sequential
baseline loop runs. -/
def scan (resolves : Bool) (connect : Nat → Bool) (low high : Nat)
    (timeoutMs : Int) : Except ScanError Unit × List Event :=
  if validRange low high = false ∨ timeoutMs ≤ 0 then
    (Except.error ScanError.configurationError, [])
  else if resolves = false then
    (Except.error ScanError.resolutionError, [])
  else
    (Except.ok (), scanList connect (List.range' low (high + 1 - low)))

theorem validRange_eq_false (low high : Nat)
    (h : high < low ∨ low < 1 ∨ 65535 < high) :
    validRange low high = false := by
  simp only [validRange, Bool.and_eq_false_iff, decide_eq_false_iff_not,
    Nat.not_le]
  omega

/- ### Claim theorems -/

/-- C1: for every port in the port range, if the TCP connection attempt
succeeds, the scan emits exactly one open-port report for that port, the
connection is closed immediately after the report, and no application
data is read or written on any connection. -/
theorem C1_open_port_reported_once_then_closed (connect : Nat → Bool)
    (p : Nat) (hp : p ∈ portList) (hc : connect p = true) :
    (reportedPorts (mainTrace connect)).count p = 1 ∧
    closedImmediately p (mainTrace connect) = true ∧
    (∀ q, Event.readData q ∉ mainTrace connect) ∧
    (∀ q, Event.writeData q ∉ mainTrace connect) := by
  refine ⟨?_, closedImmediately_scanList connect p portList, ?_, ?_⟩
  · rw [mainTrace, reportedPorts_scanList]
    exact List.count_eq_one_of_mem (portList_nodup.filter _)
      (List.mem_filter.mpr ⟨hp, hc⟩)
  · intro q hq
    rcases event_shape_scanList connect portList _ hq with
      ⟨_, _, h⟩ | ⟨_, h⟩ | ⟨_, h⟩ <;> simp at h
  · intro q hq
    rcases event_shape_scanList connect portList _ hq with
      ⟨_, _, h⟩ | ⟨_, h⟩ | ⟨_, h⟩ <;> simp at h

/-- C1 witness: with the oracle that accepts every connection, port 20 is
reported exactly once, closed immediately, and no data is transferred. -/
theorem C1_witness :
    (reportedPorts (mainTrace (fun _ => true))).count 20 = 1 ∧
    closedImmediately 20 (mainTrace (fun _ => true)) = true ∧
    (∀ q, Event.readData q ∉ mainTrace (fun _ => true)) ∧
    (∀ q, Event.writeData q ∉ mainTrace (fun _ => true)) :=
  C1_open_port_reported_once_then_closed (fun _ => true) 20 (by decide) rfl

/-- C2: for every port in the port range, if the connection attempt fails,
no report is emitted for that port, the output contains only open-port
lines (the error is not surfaced), and every port of the range is still
attempted (a per-port failure never aborts the scan). -/
theorem C2_failure_silent_scan_continues (connect : Nat → Bool) (p : Nat)
    (_hp : p ∈ portList) (hc : connect p = false) :
    p ∉ reportedPorts (mainTrace connect) ∧
    outputOf (mainTrace connect) = (portList.filter connect).map lineFor ∧
    dialedPorts (mainTrace connect) = portList := by
  refine ⟨?_, outputOf_scanList connect portList,
    dialedPorts_scanList connect portList⟩
  rw [mainTrace, reportedPorts_scanList]
  intro hmem
  have := (List.mem_filter.mp hmem).2
  rw [hc] at this
  cases this

/-- C2 witness: with the oracle that refuses every connection, port 20 is
not reported, the output is the list of open-port lines, and all ports are
still dialed. -/
theorem C2_witness :
    20 ∉ reportedPorts (mainTrace (fun _ => false)) ∧
    outputOf (mainTrace (fun _ => false)) =
      (portList.filter (fun _ => false)).map lineFor ∧
    dialedPorts (mainTrace (fun _ => false)) = portList :=
  C2_failure_silent_scan_continues (fun _ => false) 20 (by decide) rfl

/-- C3: in the sequential baseline the ports are attempted exactly in the
ascending order 20, 21, ..., 1024, and the sequence of reported open ports
is strictly increasing by port number. -/
theorem C3_sequential_ascending (connect : Nat → Bool) :
    dialedPorts (mainTrace connect) = portList ∧
    portList.Pairwise (· < ·) ∧
    (reportedPorts (mainTrace connect)).Pairwise (· < ·) := by
  refine ⟨dialedPorts_scanList connect portList, portList_sorted, ?_⟩
  rw [mainTrace, reportedPorts_scanList]
  exact List.Pairwise.filter connect portList_sorted

/-- C4: each port number appears in the result sequence at most once, for
every oracle. -/
theorem C4_port_reported_at_most_once (connect : Nat → Bool) (p : Nat) :
    (reportedPorts (mainTrace connect)).count p ≤ 1 := by
  rw [mainTrace, reportedPorts_scanList]
  exact List.nodup_iff_count_le_one.mp (portList_nodup.filter _) p

/-- C5: the baseline scans exactly the hardcoded range 20 through 1024
inclusive with a fixed 1-second per-connection timeout; for each open port
N it writes exactly the line `Port <N> open` to standard output; and the
output is streamed: the trace of the first k loop iterations is a prefix
of the full trace and already contains the lines of the open ports among
those first k ports. -/
theorem C5_hardcoded_range_format_streaming (connect : Nat → Bool)
    (k : Nat) :
    portStart = 20 ∧ portEnd = 1024 ∧ timeoutSeconds = 1 ∧
    (∀ p, p ∈ portList ↔ 20 ≤ p ∧ p ≤ 1024) ∧
    (∀ p, lineFor p = "Port " ++ toString p ++ " open") ∧
    outputOf (mainTrace connect) = (portList.filter connect).map lineFor ∧
    scanList connect (portList.take k) <+: mainTrace connect ∧
    outputOf (scanList connect (portList.take k)) =
      ((portList.take k).filter connect).map lineFor := by
  refine ⟨rfl, rfl, rfl, ?_, fun p => rfl, outputOf_scanList connect portList,
    ⟨scanList connect (portList.drop k), ?_⟩,
    outputOf_scanList connect (portList.take k)⟩
  · intro p
    simp only [portList, portStart, portEnd, List.mem_range'_1]
    omega
  · rw [mainTrace, ← scanList_append, List.take_append_drop]

/-- C6 counterexample: when the target host does not resolve, every call
to `net.DialTimeout` returns a non-nil error, i.e. the oracle is
constantly false.  In that situation the program does not abort: it still
dials every port of the range, writes nothing to standard output (no
diagnostic message), and exits with status 0 — not with a non-zero
status as the claim states. -/
theorem C6_counterexample :
    (mainRun (fun _ => false)).2 = 0 ∧
    dialedPorts (mainTrace (fun _ => false)) = portList ∧
    outputOf (mainTrace (fun _ => false)) = [] := by
  refine ⟨rfl, dialedPorts_scanList _ _, ?_⟩
  rw [mainTrace, outputOf_scanList]
  simp

/-- C6 (amended): if the target host cannot be resolved, every per-port
connection attempt fails, so the scan reports zero open ports; the program
still attempts every port of the range, writes no output at all (no
diagnostic), and the process exits with status 0 — resolution failure is
absorbed as per-port connection failures rather than treated as a
scan-level fatal condition. -/
theorem C6_resolution_failure_absorbed (connect : Nat → Bool)
    (h : ∀ p, connect p = false) :
    reportedPorts (mainTrace connect) = [] ∧
    dialedPorts (mainTrace connect) = portList ∧
    outputOf (mainTrace connect) = [] ∧
    (mainRun connect).2 = 0 := by
  refine ⟨?_, dialedPorts_scanList _ _, ?_, rfl⟩
  · rw [mainTrace, reportedPorts_scanList]
    exact List.filter_eq_nil_iff.mpr fun p _ => by rw [h p]; exact Bool.false_ne_true
  · rw [mainTrace, outputOf_scanList,
      List.filter_eq_nil_iff.mpr fun p _ => (by rw [h p]; exact Bool.false_ne_true)]
    rfl

/-- C6 witness: the amended statement holds at the constantly-false
oracle. -/
theorem C6_witness :
    reportedPorts (mainTrace (fun _ => false)) = [] ∧
    dialedPorts (mainTrace (fun _ => false)) = portList ∧
    outputOf (mainTrace (fun _ => false)) = [] ∧
    (mainRun (fun _ => false)).2 = 0 :=
  C6_resolution_failure_absorbed (fun _ => false) (fun _ => rfl)

/-- C7: if the port range is invalid (low > high, or a bound outside
1–65535) or the timeout is non-positive, `scan` fails immediately with
ConfigurationError and performs zero connection attempts (its event trace
is empty).  The parameterised `scan` is modelled from the spec, since the
baseline in `src/` hardcodes a valid configuration and contains no
validation code. -/
theorem C7_invalid_config_rejected_before_network (resolves : Bool)
    (connect : Nat → Bool) (low high : Nat) (timeoutMs : Int)
    (h : high < low ∨ low < 1 ∨ 65535 < high ∨ timeoutMs ≤ 0) :
    scan resolves connect low high timeoutMs =
      (Except.error ScanError.configurationError, []) ∧
    dialedPorts (scan resolves connect low high timeoutMs).2 = [] := by
  have hcond : validRange low high = false ∨ timeoutMs ≤ 0 := by
    rcases h with h | h | h | h
    · exact Or.inl (validRange_eq_false low high (Or.inl h))
    · exact Or.inl (validRange_eq_false low high (Or.inr (Or.inl h)))
    · exact Or.inl (validRange_eq_false low high (Or.inr (Or.inr h)))
    · exact Or.inr h
  constructor
  · rw [scan, if_pos hcond]
  · rw [scan, if_pos hcond]; rfl

/-- C7 witness: the inverted range [100, 50] with a positive timeout is
rejected with ConfigurationError and an empty trace. -/
theorem C7_witness :
    scan true (fun _ => true) 100 50 1000 =
      (Except.error ScanError.configurationError, []) ∧
    dialedPorts (scan true (fun _ => true) 100 50 1000).2 = [] :=
  C7_invalid_config_rejected_before_network true (fun _ => true) 100 50 1000
    (Or.inl (by decide))

/-- C8: the scan always terminates with a finite trace: every port of the
range is dialed exactly once (after which the sequence is exhausted), the
whole trace has at most three events per port, and every dial is bounded
by the fixed timeout, which is positive — no unbounded-wait code path. -/
theorem C8_terminates_every_dial_bounded (connect : Nat → Bool) :
    dialedPorts (mainTrace connect) = portList ∧
    (mainTrace connect).length ≤ 3 * portList.length ∧
    (∀ p t, Event.dial p t ∈ mainTrace connect → t = timeoutSeconds) ∧
    0 < timeoutSeconds :=
  ⟨dialedPorts_scanList connect portList,
    scanList_length_le connect portList,
    dial_timeout_scanList connect portList,
    Nat.zero_lt_one⟩

/-- C9: two runs whose per-port connection outcomes agree on the scanned
range report exactly the same open ports. -/
theorem C9_identical_outcomes_same_result (f g : Nat → Bool)
    (h : ∀ p ∈ portList, f p = g p) :
    reportedPorts (mainTrace f) = reportedPorts (mainTrace g) := by
  rw [mainTrace, mainTrace, reportedPorts_scanList, reportedPorts_scanList]
  exact List.filter_congr h

/-- C9 witness: the theorem applied to two copies of the same oracle. -/
theorem C9_witness :
    reportedPorts (mainTrace (fun _ => true)) =
      reportedPorts (mainTrace (fun _ => true)) :=
  C9_identical_outcomes_same_result (fun _ => true) (fun _ => true)
    (fun _ _ => rfl)

/-- C10: whatever the outcomes, the program dials each port of 20..1024
exactly once — 1005 attempts in total, no retries, no early exit — and the
process exits with status 0; when every attempt fails there is no output
at all. -/
theorem C10_one_attempt_per_port_exit_zero (connect : Nat → Bool) :
    dialedPorts (mainTrace connect) = portList ∧
    (∀ p, p ∈ portList → (dialedPorts (mainTrace connect)).count p = 1) ∧
    portList.length = 1005 ∧
    (∀ p, p ∈ portList ↔ 20 ≤ p ∧ p ≤ 1024) ∧
    (mainRun connect).2 = 0 ∧
    outputOf (mainTrace (fun _ => false)) = [] := by
  refine ⟨dialedPorts_scanList connect portList, ?_, ?_, ?_, rfl, ?_⟩
  · intro p hp
    rw [mainTrace, dialedPorts_scanList]
    exact List.count_eq_one_of_mem portList_nodup hp
  · rw [portList, List.length_range']
    rfl
  · intro p
    simp only [portList, portStart, portEnd, List.mem_range'_1]
    omega
  · rw [mainTrace, outputOf_scanList]
    simp

end PortScanner
